import Mathlib

/-!
Shallow embedding of the BadgerDB-style buffer manager from
src/BufMgr/src/buffer.cpp.  The manager state is explicit: frame
descriptor table, buffer pool, page-location hash table, clock hand and
statistics.  Every operation returns its result together with the state
as left behind (C++ exceptions leave all mutations performed so far in
place) and a trace of calls made on the file collaborator.
-/

/-- A disk page: its page number together with an abstraction of its
byte content. -/
structure Page where
  pno : Nat
  data : Nat
  deriving Repr, DecidableEq

/-- Events observable on the file collaborator: a write-back of a page
to a file, and a page deletion request. -/
inductive Ev where
  | write (fid : Nat) (pg : Page)
  | del (fid : Nat) (pno : Nat)
  deriving Repr, DecidableEq

/-- The exceptions thrown by the buffer manager (buffer.cpp includes
BufferExceededException, PageNotPinnedException, PagePinnedException,
BadBufferException) plus the file collaborator's failure of readPage on
a missing page (InvalidPageException). -/
inductive BufErr where
  | bufferExceeded
  | pageNotPinned
  | pagePinned
  | badBuffer
  | invalidPage
  deriving Repr, DecidableEq

deriving instance DecidableEq for Except

/-- The bufStats counters updated by buffer.cpp. -/
structure BufStats where
  accesses : Nat
  diskreads : Nat
  diskwrites : Nat
  deriving Repr, DecidableEq

/-- Modelled from the spec: the per-frame descriptor of section 3 of the
spec (buffer.h is not under src/).  ownerFile is an optional file
identity (none models a null file pointer), and frameNo is the slot
index stored in the descriptor by the BufMgr constructor. -/
structure BufDesc where
  frameNo : Nat
  file : Option Nat
  pageNo : Nat
  valid : Bool
  refbit : Bool
  pinCnt : Nat
  dirty : Bool
  deriving Repr, DecidableEq

/-- Modelled from the spec: BufDesc::Set initializes the descriptor for
a newly loaded page (valid, pinCnt = 1, refbit set, clean, owner and
page number recorded); frameNo is untouched. -/
def BufDesc.Set (d : BufDesc) (fid pno : Nat) : BufDesc :=
  { d with file := some fid, pageNo := pno, valid := true, refbit := true,
           pinCnt := 1, dirty := false }

/-- Modelled from the spec: BufDesc::Clear resets the descriptor
(valid = false, dirty = false, refBit = false, pinCount = 0,
owner = none) with the page number reset to the sentinel 0; frameNo is
untouched. -/
def BufDesc.Clear (d : BufDesc) : BufDesc :=
  { d with file := none, pageNo := 0, valid := false, refbit := false,
           pinCnt := 0, dirty := false }

/-- Modelled from the spec: the Page Location Index maps
(file identity, page number) to a frame id; association-list model of
BufHashTbl (its source is not under src/). -/
abbrev BufHashTbl := List ((Nat × Nat) × Nat)

/-- Lookup in the page-location index; none models the not-found
signal (HashNotFoundException caught by the callers in buffer.cpp). -/
def BufHashTbl.lookup (t : BufHashTbl) (fid pno : Nat) : Option Nat :=
  match t with
  | [] => none
  | (k, fr) :: rest =>
      if k = (fid, pno) then some fr else BufHashTbl.lookup rest fid pno

/-- Insert a mapping into the page-location index. -/
def BufHashTbl.insert (t : BufHashTbl) (fid pno fr : Nat) : BufHashTbl :=
  ((fid, pno), fr) :: t

/-- Remove a mapping from the page-location index. -/
def BufHashTbl.remove (t : BufHashTbl) (fid pno : Nat) : BufHashTbl :=
  match t with
  | [] => []
  | (k, fr) :: rest =>
      if k = (fid, pno) then BufHashTbl.remove rest fid pno
      else (k, fr) :: BufHashTbl.remove rest fid pno

/-- The on-disk content of the files, as an association list from
(file identity, page number) to the page stored there.  readPage on the
file collaborator succeeds exactly on pages present here. -/
abbrev Disk := List ((Nat × Nat) × Page)

/-- File::readPage as seen by the buffer manager: the page stored on
disk, or none when the page does not exist in the file. -/
def diskRead (d : Disk) (fid pno : Nat) : Option Page :=
  match d with
  | [] => none
  | (k, pg) :: rest => if k = (fid, pno) then some pg else diskRead rest fid pno

/-- The BufMgr object: pool size, frame descriptor table, buffer pool,
page-location hash table, clock hand and statistics. -/
structure BufMgr where
  numBufs : Nat
  bufDescTable : List BufDesc
  bufPool : List Page
  hashTable : BufHashTbl
  clockHand : Nat
  bufStats : BufStats
  deriving Repr, DecidableEq

/-- The descriptor stored at a frame index (total, with a dummy default
off the end of the table). -/
def descAt (s : BufMgr) (i : Nat) : BufDesc :=
  s.bufDescTable.getD i (BufDesc.mk 0 none 0 false false 0 false)

/-- The pool slot content at a frame index. -/
def poolAt (s : BufMgr) (i : Nat) : Page :=
  s.bufPool.getD i (Page.mk 0 0)

/-- Overwrite the descriptor at a frame index. -/
def setDesc (s : BufMgr) (i : Nat) (d : BufDesc) : BufMgr :=
  { s with bufDescTable := s.bufDescTable.set i d }

/-- Overwrite the pool slot at a frame index. -/
def setPool (s : BufMgr) (i : Nat) (p : Page) : BufMgr :=
  { s with bufPool := s.bufPool.set i p }

/-- The BufMgr constructor: every descriptor gets its frame number and
valid = false, the pool is default pages, the hash table is empty, and
the clock hand starts at bufs - 1. -/
def BufMgr.init (bufs : Nat) : BufMgr :=
  { numBufs := bufs
  , bufDescTable := (List.range bufs).map (fun i => BufDesc.mk i none 0 false false 0 false)
  , bufPool := List.replicate bufs (Page.mk 0 0)
  , hashTable := []
  , clockHand := bufs - 1
  , bufStats := BufStats.mk 0 0 0 }

/-- BufMgr::advanceClock: advance the clock hand by one, wrapping
modulo the pool size. -/
def advanceClock (s : BufMgr) : BufMgr :=
  { s with clockHand := (s.clockHand + 1) % s.numBufs }

/-- The write-back block of BufMgr::allocBuf (lines 80-90 and 120-130
of buffer.cpp): when the frame at index f is dirty, write its pool
content back through the frame's file, count the disk write, remove its
hash-table entry and Clear its descriptor; a clean frame is left
entirely untouched. -/
def evictIfDirty (s : BufMgr) (f : Nat) : BufMgr × List Ev :=
  let d := descAt s f
  if d.dirty then
    let fid := d.file.getD 0
    let s1 := { s with bufStats :=
      { s.bufStats with diskwrites := s.bufStats.diskwrites + 1 } }
    let s2 := { s1 with hashTable := BufHashTbl.remove s1.hashTable fid d.pageNo }
    let s3 := setDesc s2 f (BufDesc.Clear d)
    (s3, [Ev.write fid (poolAt s f)])
  else (s, [])

/-- The while loop of BufMgr::allocBuf (lines 95-135 of buffer.cpp),
entered with the clock hand one position past the first probed frame.
The loop runs while the clock hand differs from the first probed
position; each probe either selects an invalid frame, clears a set
refbit and advances, skips a pinned frame and advances, or selects an
unpinned unreferenced valid frame as victim.  The fuel argument bounds
the number of probes; the final branch is unreachable (the victim test
always holds once the refbit and pin tests have failed). -/
def allocLoop (initial : Nat) : Nat → BufMgr → Except BufErr Nat × BufMgr × List Ev
  | 0, s => (.error .bufferExceeded, s, [])
  | fuel + 1, s =>
    if s.clockHand = initial then (.error .bufferExceeded, s, [])
    else
      let d := descAt s s.clockHand
      if d.valid = false then (.ok d.frameNo, s, [])
      else if d.refbit = true then
        allocLoop initial fuel (advanceClock (setDesc s s.clockHand { d with refbit := false }))
      else if d.pinCnt > 0 then
        allocLoop initial fuel (advanceClock s)
      else if d.pinCnt = 0 ∧ d.refbit = false then
        let (s1, tr) := evictIfDirty s s.clockHand
        (.ok (descAt s1 s.clockHand).frameNo, s1, tr)
      else
        allocLoop initial fuel s

/-- BufMgr::allocBuf (lines 66-140 of buffer.cpp): advance the clock,
probe the first frame specially (an invalid frame or an unpinned
unreferenced valid frame is selected there; note the first probe never
clears a refbit), then scan the remaining frames with the while loop;
a full revolution without a selection throws BufferExceeded. -/
def allocBuf (s0 : BufMgr) : Except BufErr Nat × BufMgr × List Ev :=
  let s := advanceClock s0
  let initial := s.clockHand
  let d := descAt s s.clockHand
  if d.valid = false then (.ok d.frameNo, s, [])
  else if d.pinCnt = 0 ∧ d.refbit = false then
    let (s1, tr) := evictIfDirty s s.clockHand
    (.ok (descAt s1 s.clockHand).frameNo, s1, tr)
  else
    allocLoop initial s.numBufs (advanceClock s)

/-- BufMgr::readPage (lines 151-182 of buffer.cpp), the fetchPage
operation.  On an index hit the refbit is set, the pin count
incremented and the cached slot returned.  On a miss a frame is
allocated, the page read from the file (failing with invalidPage when
absent, with allocBuf's mutations left in place), the slot filled, the
mapping inserted and the descriptor Set.  Returns the frame id and the
page content the returned reference points at. -/
def readPage (disk : Disk) (s : BufMgr) (fid pno : Nat) :
    Except BufErr (Nat × Page) × BufMgr × List Ev :=
  match BufHashTbl.lookup s.hashTable fid pno with
  | none =>
    match allocBuf s with
    | (.error e, s1, tr) => (.error e, s1, tr)
    | (.ok frame, s1, tr) =>
      match diskRead disk fid pno with
      | none => (.error .invalidPage, s1, tr)
      | some p =>
        let s2 := { s1 with bufStats :=
          { s1.bufStats with diskreads := s1.bufStats.diskreads + 1 } }
        let s3 := setPool s2 frame p
        let s4 := { s3 with hashTable := BufHashTbl.insert s3.hashTable fid pno frame }
        let s5 := setDesc s4 frame ((descAt s4 frame).Set fid pno)
        (.ok (frame, p), s5, tr)
  | some frame =>
    let d := descAt s frame
    let s1 := setDesc s frame { d with refbit := true, pinCnt := d.pinCnt + 1 }
    let s2 := { s1 with bufStats :=
      { s1.bufStats with accesses := s1.bufStats.accesses + 1 } }
    (.ok (frame, poolAt s frame), s2, [])

/-- BufMgr::unPinPage (lines 192-214 of buffer.cpp): a missing index
entry is a no-op; a resident page with pin count zero throws
PageNotPinned before any dirty update; otherwise the pin count is
decremented and, when requested, the dirty bit set. -/
def unPinPage (s : BufMgr) (fid pno : Nat) (markDirty : Bool) :
    Except BufErr Unit × BufMgr × List Ev :=
  match BufHashTbl.lookup s.hashTable fid pno with
  | none => (.ok (), s, [])
  | some frame =>
    if (descAt s frame).pinCnt = 0 then (.error .pageNotPinned, s, [])
    else
      let d := descAt s frame
      let s1 := setDesc s frame { d with pinCnt := d.pinCnt - 1 }
      let s2 :=
        if markDirty then
          setDesc s1 frame { descAt s1 frame with dirty := true }
        else s1
      (.ok (), s2, [])

/-- The scan loop of BufMgr::flushFile (lines 229-257 of buffer.cpp)
over frame indices i, i+1, ... with the given fuel.  A frame with a
null file pointer is skipped; a frame of the target file throws
badBuffer on the sentinel page number 0, throws pagePinned when pinned,
otherwise is written back when dirty, removed from the hash table and
Cleared. -/
def flushLoop (fid : Nat) : Nat → Nat → BufMgr → Except BufErr Unit × BufMgr × List Ev
  | 0, _, s => (.ok (), s, [])
  | n + 1, i, s =>
    let d := descAt s i
    match d.file with
    | none => flushLoop fid n (i + 1) s
    | some f =>
      if f = fid then
        if d.pageNo = 0 then (.error .badBuffer, s, [])
        else if d.pinCnt > 0 then (.error .pagePinned, s, [])
        else
          let (s1, tr1) :=
            if d.dirty then
              ({ s with bufStats :=
                 { s.bufStats with diskwrites := s.bufStats.diskwrites + 1 } },
               [Ev.write f (poolAt s i)])
            else (s, [])
          let s2 := { s1 with hashTable := BufHashTbl.remove s1.hashTable fid d.pageNo }
          let s3 := setDesc s2 i (BufDesc.Clear d)
          match flushLoop fid n (i + 1) s3 with
          | (r, s4, tr2) => (r, s4, tr1 ++ tr2)
      else flushLoop fid n (i + 1) s

/-- BufMgr::flushFile (lines 225-259 of buffer.cpp): scan every frame
in ascending order; on normal completion count an access, and on an
exception leave the state as mutated so far. -/
def flushFile (s : BufMgr) (fid : Nat) : Except BufErr Unit × BufMgr × List Ev :=
  match flushLoop fid s.numBufs 0 s with
  | (.ok _, s1, tr) =>
    (.ok (), { s1 with bufStats :=
      { s1.bufStats with accesses := s1.bufStats.accesses + 1 } }, tr)
  | (.error e, s1, tr) => (.error e, s1, tr)

/-- BufMgr::disposePage (lines 296-315 of buffer.cpp): when the page is
cached its hash entry is removed and its descriptor Cleared, with no
pin-count check at all; the page is deleted from the file in either
case. -/
def disposePage (s : BufMgr) (fid pno : Nat) :
    Except BufErr Unit × BufMgr × List Ev :=
  match BufHashTbl.lookup s.hashTable fid pno with
  | none => (.ok (), s, [Ev.del fid pno])
  | some frame =>
    let s1 := { s with hashTable := BufHashTbl.remove s.hashTable fid pno }
    let s2 := setDesc s1 frame (BufDesc.Clear (descAt s1 frame))
    (.ok (), s2, [Ev.del fid pno])

/-- Run a sequence of fetchPage (readPage) calls, collecting the page
content each returned reference points at; the first exception aborts
the run. -/
def fetchSeq (disk : Disk) : BufMgr → List (Nat × Nat) → Except BufErr (BufMgr × List Page)
  | s, [] => .ok (s, [])
  | s, pr :: rest =>
    match readPage disk s pr.1 pr.2 with
    | (.ok (_, pg), s1, _) =>
      match fetchSeq disk s1 rest with
      | .ok (sF, pgs) => .ok (sF, pg :: pgs)
      | .error e => .error e
    | (.error e, _, _) => .error e

/-- Basic well-formedness of a manager state: nonempty pool, table and
pool lengths matching the pool size, clock hand in range, and each
descriptor carrying its own frame number (as established by the
constructor and preserved by every operation). -/
def WF (s : BufMgr) : Prop :=
  0 < s.numBufs ∧ s.bufDescTable.length = s.numBufs ∧
    s.bufPool.length = s.numBufs ∧ s.clockHand < s.numBufs ∧
    ∀ i, i < s.numBufs → (descAt s i).frameNo = i

instance (s : BufMgr) : Decidable (WF s) := by
  unfold WF; infer_instance

/-- A frame the replacement scan may select: invalid, or valid,
unpinned and with a clear refbit. -/
def eligible (s : BufMgr) (f : Nat) : Prop :=
  (descAt s f).valid = false ∨
    ((descAt s f).valid = true ∧ (descAt s f).pinCnt = 0 ∧ (descAt s f).refbit = false)

instance (s : BufMgr) (f : Nat) : Decidable (eligible s f) := by
  unfold eligible; infer_instance

/-- A small disk used by the concrete runs: file 0 holds pages 1-4. -/
def exDisk : Disk :=
  [((0,1), Page.mk 1 10), ((0,2), Page.mk 2 20), ((0,3), Page.mk 3 30), ((0,4), Page.mk 4 40)]

/-- Pool of size 1 after fetching page (0,1). -/
def cs1 : BufMgr := (readPage exDisk (BufMgr.init 1) 0 1).2.1

/-- Pool of size 1 after fetching page (0,1) and unpinning it clean:
its only frame is valid, unpinned, with the refbit still set. -/
def cs2 : BufMgr := (unPinPage cs1 0 1 false).2.1

/-- Pool of size 2 after fetching page (0,1). -/
def ct1 : BufMgr := (readPage exDisk (BufMgr.init 2) 0 1).2.1

/-- Pool of size 2 after fetching pages (0,1) and (0,2), both pinned. -/
def ct2 : BufMgr := (readPage exDisk ct1 0 2).2.1

/-- ct2 after unpinning (0,1) clean. -/
def ct3 : BufMgr := (unPinPage ct2 0 1 false).2.1

/-- ct3 after unpinning (0,2) clean: both frames valid and unpinned. -/
def ct4 : BufMgr := (unPinPage ct3 0 2 false).2.1

/-- ct4 after a first fetch of (0,3), which fails with BufferExceeded
while clearing frame 1's refbit. -/
def ct5 : BufMgr := (readPage exDisk ct4 0 3).2.1

/-- ct5 after a second fetch of (0,3), which succeeds and reuses
frame 1 (the clean victim) without removing the stale index entry
for (0,2). -/
def ct6 : BufMgr := (readPage exDisk ct5 0 3).2.1

/-- Pool of size 3 after fetching pages (0,1), (0,2) and (0,3). -/
def cu3 : BufMgr :=
  (readPage exDisk (readPage exDisk (readPage exDisk (BufMgr.init 3) 0 1).2.1 0 2).2.1 0 3).2.1

/-- cu3 after unpinning (0,1) clean and (0,2) dirty: the scenario of
claim C4 just before the fetch of page D = (0,4). -/
def cu5 : BufMgr := (unPinPage (unPinPage cu3 0 1 false).2.1 0 2 true).2.1

/-- A one-frame pool whose frame holds a valid dirty unpinned page
(file 5, page 7) with a clear refbit; used as the C5 witness input. -/
def cwD : BufMgr :=
  BufMgr.mk 1 [BufDesc.mk 0 (some 5) 7 true false 0 true]
    [Page.mk 7 42] [((5,7),0)] 0 (BufStats.mk 0 0 0)

/-- A two-frame pool holding pages (3,1) (dirty, unpinned) and (3,2)
(clean, pinned) of file 3; used as the C9 witness input. -/
def cwF : BufMgr :=
  BufMgr.mk 2 [BufDesc.mk 0 (some 3) 1 true false 0 true, BufDesc.mk 1 (some 3) 2 true true 1 false]
    [Page.mk 1 11, Page.mk 2 22] [((3,1),0), ((3,2),1)] 0 (BufStats.mk 0 0 0)

theorem descAt_advance (s : BufMgr) (i : Nat) : descAt (advanceClock s) i = descAt s i := rfl

theorem poolAt_advance (s : BufMgr) (i : Nat) : poolAt (advanceClock s) i = poolAt s i := rfl

theorem numBufs_advance (s : BufMgr) : (advanceClock s).numBufs = s.numBufs := rfl

theorem clockHand_advance (s : BufMgr) :
    (advanceClock s).clockHand = (s.clockHand + 1) % s.numBufs := rfl

theorem hash_advance (s : BufMgr) : (advanceClock s).hashTable = s.hashTable := rfl

theorem descAt_setDesc_self (s : BufMgr) (i : Nat) (d : BufDesc)
    (h : i < s.bufDescTable.length) : descAt (setDesc s i d) i = d := by
  simp [descAt, setDesc, List.getD, List.getElem?_set, h]

theorem descAt_setDesc_ne (s : BufMgr) (i j : Nat) (d : BufDesc)
    (h : i ≠ j) : descAt (setDesc s i d) j = descAt s j := by
  simp [descAt, setDesc, List.getD, List.getElem?_set, h]

theorem descAt_setPool (s : BufMgr) (i j : Nat) (p : Page) :
    descAt (setPool s i p) j = descAt s j := rfl

theorem poolAt_setDesc (s : BufMgr) (i j : Nat) (d : BufDesc) :
    poolAt (setDesc s i d) j = poolAt s j := rfl

theorem lookup_remove_self (t : BufHashTbl) (fid pno : Nat) :
    BufHashTbl.lookup (BufHashTbl.remove t fid pno) fid pno = none := by
  induction t with
  | nil => rfl
  | cons e rest ih =>
    obtain ⟨k, fr⟩ := e
    by_cases h : k = (fid, pno)
    · simpa [BufHashTbl.remove, h] using ih
    · simp [BufHashTbl.remove, h, BufHashTbl.lookup, ih]

theorem lookup_remove_none (t : BufHashTbl) (fid pno f2 p2 : Nat)
    (h : BufHashTbl.lookup t f2 p2 = none) :
    BufHashTbl.lookup (BufHashTbl.remove t fid pno) f2 p2 = none := by
  induction t with
  | nil => rfl
  | cons e rest ih =>
    obtain ⟨k, fr⟩ := e
    by_cases hk : k = (f2, p2)
    · simp [BufHashTbl.lookup, hk] at h
    · simp only [BufHashTbl.lookup, hk, if_neg, if_false] at h
      by_cases hr : k = (fid, pno)
      · simpa [BufHashTbl.remove, hr] using ih h
      · simp [BufHashTbl.remove, hr, BufHashTbl.lookup, hk, ih h]

theorem lookup_insert_self (t : BufHashTbl) (fid pno fr : Nat) :
    BufHashTbl.lookup (BufHashTbl.insert t fid pno fr) fid pno = some fr := by
  simp [BufHashTbl.insert, BufHashTbl.lookup]

theorem lookup_insert_ne (t : BufHashTbl) (fid pno fr f2 p2 : Nat)
    (h : (f2, p2) ≠ (fid, pno)) :
    BufHashTbl.lookup (BufHashTbl.insert t fid pno fr) f2 p2 =
      BufHashTbl.lookup t f2 p2 := by
  simp [BufHashTbl.insert, BufHashTbl.lookup, Ne.symm h]

theorem mod_two_cases (a N : Nat) (h : a < 2 * N) :
    a % N = if a < N then a else a - N := by
  by_cases h1 : a < N
  · simp [Nat.mod_eq_of_lt h1, h1]
  · have hN : N ≤ a := Nat.le_of_not_lt h1
    have h2 : a % N = (a - N) % N := Nat.mod_eq_sub_mod hN
    have h3 : a - N < N := by omega
    simp [h2, Nat.mod_eq_of_lt h3, h1]

theorem clockDist_eq_zero (c N : Nat) : (c + N - c) % N = 0 := by
  have h : c + N - c = N := by omega
  simp [h]

theorem clockDist_step (c initial N : Nat) (hc : c < N) (hi : initial < N)
    (hne : c ≠ initial) :
    (initial + N - (c + 1) % N) % N = (initial + N - c) % N - 1 := by
  have hN : 0 < N := by omega
  by_cases hcN : c + 1 = N
  · have h1 : (c + 1) % N = 0 := by simp [hcN]
    rw [h1]
    have h2 : (initial + N - 0) % N = initial := by
      have := Nat.add_mod_right initial N
      simpa [Nat.mod_eq_of_lt hi] using this
    rw [h2]
    have h3 : initial + N - c = initial + 1 := by omega
    have h4 : initial + 1 < N ∨ initial + 1 = N := by omega
    rcases h4 with h4 | h4
    · rw [h3, Nat.mod_eq_of_lt h4]; omega
    · omega
  · have h1 : (c + 1) % N = c + 1 := Nat.mod_eq_of_lt (by omega)
    rw [h1]
    have hb1 : initial + N - (c + 1) < 2 * N := by omega
    have hb2 : initial + N - c < 2 * N := by omega
    rw [mod_two_cases _ _ hb1, mod_two_cases _ _ hb2]
    by_cases h5 : initial < c
    · have : initial + N - (c + 1) < N := by omega
      have : initial + N - c < N := by omega
      simp only [if_pos ‹initial + N - (c+1) < N›, if_pos ‹initial + N - c < N›]
      omega
    · have h6 : c < initial := by omega
      have : ¬ initial + N - (c + 1) < N := by omega
      have : ¬ initial + N - c < N := by omega
      simp only [if_neg ‹¬ initial + N - (c+1) < N›, if_neg ‹¬ initial + N - c < N›]
      omega

theorem clockDist_add (c p N : Nat) (hc : c < N) (hp : p < N) :
    (c + (p + N - c) % N) % N = p := by
  have hb : p + N - c < 2 * N := by omega
  rw [mod_two_cases _ _ hb]
  by_cases h1 : p + N - c < N
  · rw [if_pos h1]
    have h2 : c + (p + N - c) = p + N := by omega
    rw [h2, Nat.add_mod_right, Nat.mod_eq_of_lt hp]
  · rw [if_neg h1]
    have h2 : c + (p + N - c - N) = p := by omega
    rw [h2, Nat.mod_eq_of_lt hp]

theorem clockAddMod_ne (c j N : Nat) (hc : c < N) (h1 : 1 ≤ j) (h2 : j ≤ N - 1) :
    (c + j) % N ≠ c := by
  have hb : c + j < 2 * N := by omega
  rw [mod_two_cases _ _ hb]
  by_cases h3 : c + j < N
  · rw [if_pos h3]; omega
  · rw [if_neg h3]; omega

theorem clockDist_after_advance (c N : Nat) (hc : c < N) :
    (c + N - (c + 1) % N) % N = N - 1 := by
  by_cases hcN : c + 1 = N
  · have h1 : (c + 1) % N = 0 := by simp [hcN]
    rw [h1]
    have h2 : (c + N - 0) % N = c := by
      have := Nat.add_mod_right c N
      simpa [Nat.mod_eq_of_lt hc] using this
    omega
  · have h1 : (c + 1) % N = c + 1 := Nat.mod_eq_of_lt (by omega)
    rw [h1]
    have h2 : c + N - (c + 1) = N - 1 := by omega
    rw [h2, Nat.mod_eq_of_lt (by omega)]

theorem numBufs_setDesc (s : BufMgr) (i : Nat) (d : BufDesc) :
    (setDesc s i d).numBufs = s.numBufs := rfl

theorem clockHand_setDesc (s : BufMgr) (i : Nat) (d : BufDesc) :
    (setDesc s i d).clockHand = s.clockHand := rfl

theorem hash_setDesc (s : BufMgr) (i : Nat) (d : BufDesc) :
    (setDesc s i d).hashTable = s.hashTable := rfl

theorem pool_setDesc (s : BufMgr) (i : Nat) (d : BufDesc) :
    (setDesc s i d).bufPool = s.bufPool := rfl

theorem len_setDesc (s : BufMgr) (i : Nat) (d : BufDesc) :
    (setDesc s i d).bufDescTable.length = s.bufDescTable.length := by
  simp [setDesc]

theorem allocLoop_succ_exit (initial fuel : Nat) (s : BufMgr)
    (h : s.clockHand = initial) :
    allocLoop initial (fuel + 1) s = (.error .bufferExceeded, s, []) := by
  simp [allocLoop, h]

theorem allocLoop_succ_invalid (initial fuel : Nat) (s : BufMgr)
    (hne : s.clockHand ≠ initial) (hv : (descAt s s.clockHand).valid = false) :
    allocLoop initial (fuel + 1) s = (.ok (descAt s s.clockHand).frameNo, s, []) := by
  simp [allocLoop, hne, hv]

theorem allocLoop_succ_refbit (initial fuel : Nat) (s : BufMgr)
    (hne : s.clockHand ≠ initial) (hv : (descAt s s.clockHand).valid = true)
    (hr : (descAt s s.clockHand).refbit = true) :
    allocLoop initial (fuel + 1) s =
      allocLoop initial fuel
        (advanceClock (setDesc s s.clockHand { descAt s s.clockHand with refbit := false })) := by
  simp [allocLoop, hne, hv, hr]

theorem allocLoop_succ_pinned (initial fuel : Nat) (s : BufMgr)
    (hne : s.clockHand ≠ initial) (hv : (descAt s s.clockHand).valid = true)
    (hr : (descAt s s.clockHand).refbit = false)
    (hp : 0 < (descAt s s.clockHand).pinCnt) :
    allocLoop initial (fuel + 1) s = allocLoop initial fuel (advanceClock s) := by
  simp [allocLoop, hne, hv, hr, hp, Nat.pos_iff_ne_zero.mp hp]

theorem allocLoop_succ_victim (initial fuel : Nat) (s : BufMgr)
    (hne : s.clockHand ≠ initial) (hv : (descAt s s.clockHand).valid = true)
    (hr : (descAt s s.clockHand).refbit = false)
    (hp : (descAt s s.clockHand).pinCnt = 0) :
    allocLoop initial (fuel + 1) s =
      (.ok (descAt (evictIfDirty s s.clockHand).1 s.clockHand).frameNo,
        (evictIfDirty s s.clockHand).1, (evictIfDirty s s.clockHand).2) := by
  simp [allocLoop, hne, hv, hr, hp]

theorem not_eligible_cases (s : BufMgr) (f : Nat) (h : ¬ eligible s f) :
    (descAt s f).valid = true ∧ ((descAt s f).refbit = true ∨
      ((descAt s f).refbit = false ∧ 0 < (descAt s f).pinCnt)) := by
  have hv : (descAt s f).valid = true := by
    by_cases hv : (descAt s f).valid = false
    · exact absurd (Or.inl hv) h
    · simpa using hv
  refine ⟨hv, ?_⟩
  by_cases hr : (descAt s f).refbit = true
  · exact Or.inl hr
  · have hr2 : (descAt s f).refbit = false := by simpa using hr
    rcases Nat.eq_zero_or_pos (descAt s f).pinCnt with hp | hp
    · exact absurd (Or.inr ⟨hv, hp, hr2⟩) h
    · exact Or.inr ⟨hr2, hp⟩

theorem allocLoop_finds (initial N : Nat) :
    ∀ k fuel s, s.numBufs = N → 0 < N → s.clockHand < N → initial < N →
      k < fuel → k < (initial + N - s.clockHand) % N →
      eligible s ((s.clockHand + k) % N) →
      ∃ fr s' tr, allocLoop initial fuel s = (.ok fr, s', tr) := by
  intro k
  induction k with
  | zero =>
    intro fuel s hN h0 hc hi hf hd he
    have hcne : s.clockHand ≠ initial := fun h => by
      rw [h, clockDist_eq_zero] at hd; omega
    match fuel, hf with
    | fuel + 1, _ =>
      rw [Nat.add_zero, Nat.mod_eq_of_lt hc] at he
      rcases he with hv | ⟨hv, hp, hr⟩
      · exact ⟨_, _, _, allocLoop_succ_invalid initial fuel s hcne hv⟩
      · exact ⟨_, _, _, allocLoop_succ_victim initial fuel s hcne hv hr hp⟩
  | succ k ih =>
    intro fuel s hN h0 hc hi hf hd he
    have hcne : s.clockHand ≠ initial := fun h => by
      rw [h, clockDist_eq_zero] at hd; omega
    have hdistlt : (initial + N - s.clockHand) % N < N := Nat.mod_lt _ h0
    have hpne : (s.clockHand + (k + 1)) % N ≠ s.clockHand :=
      clockAddMod_ne s.clockHand (k + 1) N hc (by omega) (by omega)
    have hstep := clockDist_step s.clockHand initial N hc hi hcne
    match fuel, hf with
    | fuel + 1, _ =>
      by_cases helig : eligible s s.clockHand
      · rcases helig with hv | ⟨hv, hp, hr⟩
        · exact ⟨_, _, _, allocLoop_succ_invalid initial fuel s hcne hv⟩
        · exact ⟨_, _, _, allocLoop_succ_victim initial fuel s hcne hv hr hp⟩
      · obtain ⟨hv, hor⟩ := not_eligible_cases s s.clockHand helig
        rcases hor with hr | ⟨hr, hp⟩
        · rw [allocLoop_succ_refbit initial fuel s hcne hv hr]
          have hN2 : (advanceClock (setDesc s s.clockHand
              { descAt s s.clockHand with refbit := false })).numBufs = N := by
            rw [numBufs_advance, numBufs_setDesc, hN]
          have hck : (advanceClock (setDesc s s.clockHand
              { descAt s s.clockHand with refbit := false })).clockHand =
              (s.clockHand + 1) % N := by
            rw [clockHand_advance, clockHand_setDesc, numBufs_setDesc, hN]
          have hc2 : (advanceClock (setDesc s s.clockHand
              { descAt s s.clockHand with refbit := false })).clockHand < N := by
            rw [hck]; exact Nat.mod_lt _ h0
          have hd2 : k < (initial + N - (advanceClock (setDesc s s.clockHand
              { descAt s s.clockHand with refbit := false })).clockHand) % N := by
            rw [hck, hstep]; omega
          have he2 : eligible (advanceClock (setDesc s s.clockHand
              { descAt s s.clockHand with refbit := false }))
              (((advanceClock (setDesc s s.clockHand
                { descAt s s.clockHand with refbit := false })).clockHand + k) % N) := by
            rw [hck, Nat.mod_add_mod,
              show s.clockHand + 1 + k = s.clockHand + (k + 1) from by omega]
            have hde : descAt (advanceClock (setDesc s s.clockHand
                { descAt s s.clockHand with refbit := false }))
                ((s.clockHand + (k + 1)) % N) =
                descAt s ((s.clockHand + (k + 1)) % N) := by
              rw [descAt_advance]
              exact descAt_setDesc_ne s _ _ _ (Ne.symm hpne)
            unfold eligible
            rw [hde]
            exact he
          exact ih fuel _ hN2 h0 hc2 hi (by omega) hd2 he2
        · rw [allocLoop_succ_pinned initial fuel s hcne hv hr hp]
          have hck : (advanceClock s).clockHand = (s.clockHand + 1) % N := by
            rw [clockHand_advance, hN]
          have hc2 : (advanceClock s).clockHand < N := by
            rw [hck]; exact Nat.mod_lt _ h0
          have hd2 : k < (initial + N - (advanceClock s).clockHand) % N := by
            rw [hck, hstep]; omega
          have he2 : eligible (advanceClock s) (((advanceClock s).clockHand + k) % N) := by
            rw [hck, Nat.mod_add_mod,
              show s.clockHand + 1 + k = s.clockHand + (k + 1) from by omega]
            unfold eligible
            rw [descAt_advance]
            exact he
          exact ih fuel _ (by rw [numBufs_advance, hN]) h0 hc2 hi (by omega) hd2 he2

theorem allocBuf_invalid (s0 : BufMgr)
    (hv : (descAt s0 ((s0.clockHand + 1) % s0.numBufs)).valid = false) :
    allocBuf s0 = (.ok (descAt s0 ((s0.clockHand + 1) % s0.numBufs)).frameNo,
      advanceClock s0, []) := by
  simp [allocBuf, descAt_advance, clockHand_advance, hv]

theorem allocBuf_victim (s0 : BufMgr)
    (hv : (descAt s0 ((s0.clockHand + 1) % s0.numBufs)).valid = true)
    (hp : (descAt s0 ((s0.clockHand + 1) % s0.numBufs)).pinCnt = 0)
    (hr : (descAt s0 ((s0.clockHand + 1) % s0.numBufs)).refbit = false) :
    allocBuf s0 =
      (.ok (descAt (evictIfDirty (advanceClock s0) ((s0.clockHand + 1) % s0.numBufs)).1
          ((s0.clockHand + 1) % s0.numBufs)).frameNo,
        (evictIfDirty (advanceClock s0) ((s0.clockHand + 1) % s0.numBufs)).1,
        (evictIfDirty (advanceClock s0) ((s0.clockHand + 1) % s0.numBufs)).2) := by
  simp [allocBuf, descAt_advance, clockHand_advance, hv, hp, hr]

theorem allocBuf_fall (s0 : BufMgr)
    (hv : (descAt s0 ((s0.clockHand + 1) % s0.numBufs)).valid = true)
    (hnot : ¬((descAt s0 ((s0.clockHand + 1) % s0.numBufs)).pinCnt = 0 ∧
              (descAt s0 ((s0.clockHand + 1) % s0.numBufs)).refbit = false)) :
    allocBuf s0 = allocLoop ((s0.clockHand + 1) % s0.numBufs) s0.numBufs
      (advanceClock (advanceClock s0)) := by
  simp [allocBuf, descAt_advance, clockHand_advance, numBufs_advance, hv, hnot]

/-- C2: the allocation scan returns a frame whenever some frame is
invalid or some valid frame is unpinned with a clear refbit (the
amended form of the claim; the unamended form fails because a valid
unpinned frame whose refbit is set at scan start can be passed over for
the whole single revolution, see the counterexample). -/
theorem c2_amended (s : BufMgr) (hwf : WF s)
    (h : ∃ f, f < s.numBufs ∧ eligible s f) :
    ∃ fr s' tr, allocBuf s = (.ok fr, s', tr) := by
  obtain ⟨h0, hlen, hplen, hch, hfrn⟩ := hwf
  obtain ⟨f, hfN, hef⟩ := h
  have hc0N : (s.clockHand + 1) % s.numBufs < s.numBufs := Nat.mod_lt _ h0
  by_cases he0 : eligible s ((s.clockHand + 1) % s.numBufs)
  · rcases he0 with hv | ⟨hv, hp, hr⟩
    · exact ⟨_, _, _, allocBuf_invalid s hv⟩
    · exact ⟨_, _, _, allocBuf_victim s hv hp hr⟩
  · obtain ⟨hv, hor⟩ := not_eligible_cases s _ he0
    have hnot : ¬((descAt s ((s.clockHand + 1) % s.numBufs)).pinCnt = 0 ∧
        (descAt s ((s.clockHand + 1) % s.numBufs)).refbit = false) := by
      rcases hor with hr | ⟨hr, hp⟩
      · rintro ⟨-, hr2⟩; rw [hr] at hr2; exact Bool.noConfusion hr2
      · rintro ⟨hp2, -⟩; omega
    rw [allocBuf_fall s hv hnot]
    have hfne : f ≠ (s.clockHand + 1) % s.numBufs := by
      intro hEq
      rw [hEq] at hef
      exact he0 hef
    set c2 := (advanceClock (advanceClock s)).clockHand with hc2d
    have hs2c : c2 = ((s.clockHand + 1) % s.numBufs + 1) % s.numBufs := by
      rw [hc2d, clockHand_advance, clockHand_advance, numBufs_advance]
    have hs2cN : c2 < s.numBufs := by
      rw [hs2c]; exact Nat.mod_lt _ h0
    have hk_eq := clockDist_add c2 f s.numBufs hs2cN hfN
    have hdist : ((s.clockHand + 1) % s.numBufs + s.numBufs - c2) % s.numBufs =
        s.numBufs - 1 := by
      rw [hs2c]; exact clockDist_after_advance _ _ hc0N
    have hkN : (f + s.numBufs - c2) % s.numBufs < s.numBufs := Nat.mod_lt _ h0
    have hkne : (f + s.numBufs - c2) % s.numBufs ≠ s.numBufs - 1 := by
      intro hk
      apply hfne
      rw [← hk_eq, hk, hs2c, Nat.mod_add_mod,
        show (s.clockHand + 1) % s.numBufs + 1 + (s.numBufs - 1) =
          (s.clockHand + 1) % s.numBufs + s.numBufs from by omega,
        Nat.add_mod_right, Nat.mod_eq_of_lt hc0N]
    have he2 : eligible (advanceClock (advanceClock s)) ((c2 + ((f + s.numBufs - c2) % s.numBufs)) % s.numBufs) := by
      rw [hk_eq]
      unfold eligible
      rw [descAt_advance, descAt_advance]
      exact hef
    exact allocLoop_finds ((s.clockHand + 1) % s.numBufs) s.numBufs
      ((f + s.numBufs - c2) % s.numBufs)
      s.numBufs (advanceClock (advanceClock s)) rfl h0 hs2cN hc0N (by omega)
      (by rw [hdist]; omega) he2

theorem evictIfDirty_dirty (s : BufMgr) (f : Nat)
    (hd : (descAt s f).dirty = true) :
    (evictIfDirty s f).2 = [Ev.write ((descAt s f).file.getD 0) (poolAt s f)] ∧
    (evictIfDirty s f).1.hashTable =
      BufHashTbl.remove s.hashTable ((descAt s f).file.getD 0) (descAt s f).pageNo ∧
    (evictIfDirty s f).1.bufDescTable =
      s.bufDescTable.set f (BufDesc.Clear (descAt s f)) ∧
    (evictIfDirty s f).1.bufPool = s.bufPool ∧
    (evictIfDirty s f).1.clockHand = s.clockHand ∧
    (evictIfDirty s f).1.numBufs = s.numBufs := by
  simp [evictIfDirty, hd, setDesc]

theorem evictIfDirty_clean (s : BufMgr) (f : Nat)
    (hd : (descAt s f).dirty = false) :
    evictIfDirty s f = (s, []) := by
  simp [evictIfDirty, hd]

theorem descAt_of_table (s1 s2 : BufMgr) (j : Nat)
    (h : s1.bufDescTable = s2.bufDescTable) : descAt s1 j = descAt s2 j := by
  unfold descAt; rw [h]

theorem descAt_clearRef (s : BufMgr) (c j : Nat) (hc : c < s.bufDescTable.length) :
    (descAt (setDesc s c { descAt s c with refbit := false }) j).valid = (descAt s j).valid ∧
    (descAt (setDesc s c { descAt s c with refbit := false }) j).dirty = (descAt s j).dirty ∧
    (descAt (setDesc s c { descAt s c with refbit := false }) j).file = (descAt s j).file ∧
    (descAt (setDesc s c { descAt s c with refbit := false }) j).pageNo = (descAt s j).pageNo ∧
    (descAt (setDesc s c { descAt s c with refbit := false }) j).frameNo = (descAt s j).frameNo := by
  by_cases h : c = j
  · subst h; rw [descAt_setDesc_self _ _ _ hc]; simp
  · rw [descAt_setDesc_ne _ _ _ _ h]; simp

theorem allocLoop_dirty (initial N : Nat) :
    ∀ fuel s fr s' tr, s.numBufs = N → 0 < N → s.clockHand < N →
      s.bufDescTable.length = N →
      (∀ i, i < N → (descAt s i).frameNo = i) →
      allocLoop initial fuel s = (.ok fr, s', tr) →
      ∀ fid, (descAt s fr).valid = true → (descAt s fr).dirty = true →
        (descAt s fr).file = some fid →
        Ev.write fid (poolAt s fr) ∈ tr ∧
        BufHashTbl.lookup s'.hashTable fid (descAt s fr).pageNo = none ∧
        descAt s' fr = BufDesc.Clear (descAt s fr) := by
  intro fuel
  induction fuel with
  | zero =>
    intro s fr s' tr hN h0 hc hlen hfrn heq fid hv hd hf
    simp [allocLoop] at heq
  | succ fuel ih =>
    intro s fr s' tr hN h0 hc hlen hfrn heq fid hv hd hf
    by_cases hcne : s.clockHand = initial
    · rw [allocLoop_succ_exit initial fuel s hcne] at heq
      simp at heq
    · by_cases hv0 : (descAt s s.clockHand).valid = false
      · rw [allocLoop_succ_invalid initial fuel s hcne hv0] at heq
        rw [Prod.mk.injEq, Prod.mk.injEq] at heq
        obtain ⟨h1, h2, h3⟩ := heq
        injection h1 with h1
        have hfr : fr = s.clockHand := by
          rw [← h1, hfrn s.clockHand hc]
        rw [hfr] at hv
        rw [hv] at hv0
        exact Bool.noConfusion hv0
      · have hv0t : (descAt s s.clockHand).valid = true := by simpa using hv0
        by_cases hr : (descAt s s.clockHand).refbit = true
        · rw [allocLoop_succ_refbit initial fuel s hcne hv0t hr] at heq
          have hcl : s.clockHand < s.bufDescTable.length := by omega
          have hc2 : (advanceClock (setDesc s s.clockHand
              { descAt s s.clockHand with refbit := false })).clockHand < N := by
            rw [clockHand_advance, clockHand_setDesc, numBufs_setDesc, hN]
            exact Nat.mod_lt _ h0
          have hfrn2 : ∀ i, i < N →
              (descAt (advanceClock (setDesc s s.clockHand
                { descAt s s.clockHand with refbit := false })) i).frameNo = i := by
            intro i hi
            rw [descAt_advance, (descAt_clearRef s s.clockHand i hcl).2.2.2.2]
            exact hfrn i hi
          obtain ⟨m1, m2, m3⟩ := ih _ fr s' tr
            (by rw [numBufs_advance, numBufs_setDesc, hN]) h0 hc2
            (by rw [show (advanceClock (setDesc s s.clockHand
              { descAt s s.clockHand with refbit := false })).bufDescTable =
                (setDesc s s.clockHand
                  { descAt s s.clockHand with refbit := false }).bufDescTable from rfl,
              len_setDesc, hlen])
            hfrn2 heq fid
            (by rw [descAt_advance, (descAt_clearRef s s.clockHand fr hcl).1]; exact hv)
            (by rw [descAt_advance, (descAt_clearRef s s.clockHand fr hcl).2.1]; exact hd)
            (by rw [descAt_advance, (descAt_clearRef s s.clockHand fr hcl).2.2.1]; exact hf)
          have hpool : poolAt (advanceClock (setDesc s s.clockHand
              { descAt s s.clockHand with refbit := false })) fr = poolAt s fr := rfl
          have hpg := (descAt_clearRef s s.clockHand fr hcl).2.2.2.1
          rw [hpool] at m1
          rw [descAt_advance, hpg] at m2
          refine ⟨m1, m2, ?_⟩
          rw [m3, descAt_advance]
          by_cases hj : s.clockHand = fr
          · subst hj
            rw [descAt_setDesc_self _ _ _ hcl]
            simp [BufDesc.Clear]
          · rw [descAt_setDesc_ne _ _ _ _ hj]
        · have hrf : (descAt s s.clockHand).refbit = false := by simpa using hr
          rcases Nat.eq_zero_or_pos (descAt s s.clockHand).pinCnt with hp | hp
          · rw [allocLoop_succ_victim initial fuel s hcne hv0t hrf hp] at heq
            rw [Prod.mk.injEq, Prod.mk.injEq] at heq
            obtain ⟨h1, h2, h3⟩ := heq
            injection h1 with h1
            by_cases hdirty : (descAt s s.clockHand).dirty = true
            · obtain ⟨e2, ehash, etable, epool, eclock, enum⟩ :=
                evictIfDirty_dirty s s.clockHand hdirty
              have hcl : s.clockHand < s.bufDescTable.length := by omega
              have hdesc1 : descAt (evictIfDirty s s.clockHand).1 s.clockHand =
                  BufDesc.Clear (descAt s s.clockHand) := by
                rw [descAt_of_table (evictIfDirty s s.clockHand).1
                  (setDesc s s.clockHand (BufDesc.Clear (descAt s s.clockHand)))
                  s.clockHand (by rw [etable]; rfl)]
                exact descAt_setDesc_self s _ _ hcl
              have hfr : fr = s.clockHand := by
                rw [← h1, hdesc1]
                show (descAt s s.clockHand).frameNo = s.clockHand
                exact hfrn s.clockHand hc
              subst hfr
              have hfid : (descAt s s.clockHand).file.getD 0 = fid := by rw [hf]; rfl
              refine ⟨?_, ?_, ?_⟩
              · rw [← h3, e2, hfid]
                exact List.mem_singleton.mpr rfl
              · rw [← h2, ehash, hfid]
                exact lookup_remove_self s.hashTable fid (descAt s s.clockHand).pageNo
              · rw [← h2, hdesc1]
            · have hdf : (descAt s s.clockHand).dirty = false := by simpa using hdirty
              have hev := evictIfDirty_clean s s.clockHand hdf
              rw [hev] at h1 h2 h3
              have hfr : fr = s.clockHand := by
                rw [← h1, hfrn s.clockHand hc]
              rw [hfr] at hd
              rw [hd] at hdf
              exact Bool.noConfusion hdf
          · rw [allocLoop_succ_pinned initial fuel s hcne hv0t hrf hp] at heq
            exact ih (advanceClock s) fr s' tr (by rw [numBufs_advance, hN]) h0
              (by rw [clockHand_advance, hN]; exact Nat.mod_lt _ h0)
              (by rw [show (advanceClock s).bufDescTable = s.bufDescTable from rfl, hlen])
              (fun i hi => hfrn i hi) heq fid hv hd hf

/-- C5: whenever allocBuf returns a frame that held a valid dirty page,
the page has been written back through the file collaborator's
writePage and its (file, pageNumber) entry removed from the index
before the frame id is returned. -/
theorem c5_writeback (s : BufMgr) (fr fid : Nat) (s' : BufMgr) (tr : List Ev)
    (hwf : WF s)
    (hv : (descAt s fr).valid = true) (hd : (descAt s fr).dirty = true)
    (hf : (descAt s fr).file = some fid)
    (halloc : allocBuf s = (.ok fr, s', tr)) :
    Ev.write fid (poolAt s fr) ∈ tr ∧
      BufHashTbl.lookup s'.hashTable fid (descAt s fr).pageNo = none := by
  obtain ⟨h0, hlen, hplen, hch, hfrn⟩ := hwf
  have hc0N : (s.clockHand + 1) % s.numBufs < s.numBufs := Nat.mod_lt _ h0
  by_cases hv0 : (descAt s ((s.clockHand + 1) % s.numBufs)).valid = false
  · rw [allocBuf_invalid s hv0] at halloc
    rw [Prod.mk.injEq, Prod.mk.injEq] at halloc
    obtain ⟨h1, h2, h3⟩ := halloc
    injection h1 with h1
    have hfr : fr = (s.clockHand + 1) % s.numBufs := by
      rw [← h1, hfrn _ hc0N]
    rw [hfr] at hv
    rw [hv] at hv0
    exact Bool.noConfusion hv0
  · have hv0t : (descAt s ((s.clockHand + 1) % s.numBufs)).valid = true := by
      simpa using hv0
    by_cases hsel : (descAt s ((s.clockHand + 1) % s.numBufs)).pinCnt = 0 ∧
        (descAt s ((s.clockHand + 1) % s.numBufs)).refbit = false
    · rw [allocBuf_victim s hv0t hsel.1 hsel.2] at halloc
      rw [Prod.mk.injEq, Prod.mk.injEq] at halloc
      obtain ⟨h1, h2, h3⟩ := halloc
      injection h1 with h1
      by_cases hdirty : (descAt s ((s.clockHand + 1) % s.numBufs)).dirty = true
      · obtain ⟨e2, ehash, etable, epool, eclock, enum⟩ :=
          evictIfDirty_dirty (advanceClock s) ((s.clockHand + 1) % s.numBufs)
            (by rw [descAt_advance]; exact hdirty)
        have hcl : (s.clockHand + 1) % s.numBufs < s.bufDescTable.length := by omega
        have hdesc1 : descAt (evictIfDirty (advanceClock s)
            ((s.clockHand + 1) % s.numBufs)).1 ((s.clockHand + 1) % s.numBufs) =
            BufDesc.Clear (descAt s ((s.clockHand + 1) % s.numBufs)) := by
          rw [descAt_of_table (evictIfDirty (advanceClock s)
              ((s.clockHand + 1) % s.numBufs)).1
            (setDesc s ((s.clockHand + 1) % s.numBufs)
              (BufDesc.Clear (descAt s ((s.clockHand + 1) % s.numBufs))))
            ((s.clockHand + 1) % s.numBufs) (by rw [etable]; rfl)]
          exact descAt_setDesc_self s _ _ hcl
        have hfr : fr = (s.clockHand + 1) % s.numBufs := by
          rw [← h1, hdesc1]
          show (descAt s ((s.clockHand + 1) % s.numBufs)).frameNo = _
          exact hfrn _ hc0N
        subst hfr
        have hfid : (descAt (advanceClock s) ((s.clockHand + 1) % s.numBufs)).file.getD 0
            = fid := by
          rw [descAt_advance, hf]; rfl
        refine ⟨?_, ?_⟩
        · rw [← h3, e2, hfid]
          exact List.mem_singleton.mpr rfl
        · rw [← h2, ehash, hfid]
          show BufHashTbl.lookup (BufHashTbl.remove s.hashTable fid
            (descAt s ((s.clockHand + 1) % s.numBufs)).pageNo) fid
            (descAt s ((s.clockHand + 1) % s.numBufs)).pageNo = none
          exact lookup_remove_self s.hashTable fid
            (descAt s ((s.clockHand + 1) % s.numBufs)).pageNo
      · have hdf : (descAt s ((s.clockHand + 1) % s.numBufs)).dirty = false := by
          simpa using hdirty
        have hev := evictIfDirty_clean (advanceClock s) ((s.clockHand + 1) % s.numBufs)
          (by rw [descAt_advance]; exact hdf)
        rw [hev] at h1
        have hfr : fr = (s.clockHand + 1) % s.numBufs := by
          rw [← h1]
          show (descAt s ((s.clockHand + 1) % s.numBufs)).frameNo = _
          exact hfrn _ hc0N
        rw [hfr] at hd
        rw [hd] at hdf
        exact Bool.noConfusion hdf
    · rw [allocBuf_fall s hv0t hsel] at halloc
      obtain ⟨m1, m2, m3⟩ := allocLoop_dirty ((s.clockHand + 1) % s.numBufs) s.numBufs
        s.numBufs (advanceClock (advanceClock s)) fr s' tr rfl h0
        (by rw [clockHand_advance, clockHand_advance, numBufs_advance]
            exact Nat.mod_lt _ h0)
        hlen hfrn halloc fid hv hd hf
      exact ⟨m1, m2⟩

theorem hash_evictIfDirty_none (s : BufMgr) (f k1 k2 : Nat)
    (h : BufHashTbl.lookup s.hashTable k1 k2 = none) :
    BufHashTbl.lookup (evictIfDirty s f).1.hashTable k1 k2 = none := by
  by_cases hd : (descAt s f).dirty = true
  · obtain ⟨-, ehash, -, -, -, -⟩ := evictIfDirty_dirty s f hd
    rw [ehash]
    exact lookup_remove_none _ _ _ _ _ h
  · rw [evictIfDirty_clean s f (by simpa using hd)]
    exact h

theorem allocLoop_no_insert (initial : Nat) :
    ∀ fuel s k1 k2, BufHashTbl.lookup s.hashTable k1 k2 = none →
      BufHashTbl.lookup (allocLoop initial fuel s).2.1.hashTable k1 k2 = none := by
  intro fuel
  induction fuel with
  | zero =>
    intro s k1 k2 h
    exact h
  | succ fuel ih =>
    intro s k1 k2 h
    by_cases hcne : s.clockHand = initial
    · rw [allocLoop_succ_exit initial fuel s hcne]
      exact h
    · by_cases hv0 : (descAt s s.clockHand).valid = false
      · rw [allocLoop_succ_invalid initial fuel s hcne hv0]
        exact h
      · have hv0t : (descAt s s.clockHand).valid = true := by simpa using hv0
        by_cases hr : (descAt s s.clockHand).refbit = true
        · rw [allocLoop_succ_refbit initial fuel s hcne hv0t hr]
          exact ih _ k1 k2 h
        · have hrf : (descAt s s.clockHand).refbit = false := by simpa using hr
          rcases Nat.eq_zero_or_pos (descAt s s.clockHand).pinCnt with hp | hp
          · rw [allocLoop_succ_victim initial fuel s hcne hv0t hrf hp]
            exact hash_evictIfDirty_none s _ k1 k2 h
          · rw [allocLoop_succ_pinned initial fuel s hcne hv0t hrf hp]
            exact ih _ k1 k2 h

theorem allocBuf_no_insert (s : BufMgr) (k1 k2 : Nat)
    (h : BufHashTbl.lookup s.hashTable k1 k2 = none) :
    BufHashTbl.lookup (allocBuf s).2.1.hashTable k1 k2 = none := by
  by_cases hv0 : (descAt s ((s.clockHand + 1) % s.numBufs)).valid = false
  · rw [allocBuf_invalid s hv0]
    exact h
  · have hv0t : (descAt s ((s.clockHand + 1) % s.numBufs)).valid = true := by
      simpa using hv0
    by_cases hsel : (descAt s ((s.clockHand + 1) % s.numBufs)).pinCnt = 0 ∧
        (descAt s ((s.clockHand + 1) % s.numBufs)).refbit = false
    · rw [allocBuf_victim s hv0t hsel.1 hsel.2]
      exact hash_evictIfDirty_none (advanceClock s) _ k1 k2 h
    · rw [allocBuf_fall s hv0t hsel]
      exact allocLoop_no_insert _ _ _ k1 k2 h

/-- C8 amended: a failing fetchPage adds no index entry for the
requested page: after the failure, lookup of the requested
(file, pageNumber) still reports not-found. -/
theorem c8_amended (disk : Disk) (s : BufMgr) (fid pno : Nat) (e : BufErr)
    (s' : BufMgr) (tr : List Ev)
    (hfail : readPage disk s fid pno = (.error e, s', tr)) :
    BufHashTbl.lookup s'.hashTable fid pno = none := by
  unfold readPage at hfail
  cases hlk : BufHashTbl.lookup s.hashTable fid pno with
  | some fr =>
    rw [hlk] at hfail
    simp at hfail
  | none =>
    rw [hlk] at hfail
    rcases halloc : allocBuf s with ⟨r, s1, tr1⟩
    rw [halloc] at hfail
    cases r with
    | error e2 =>
      simp at hfail
      obtain ⟨-, hs, -⟩ := hfail
      rw [← hs]
      have hni := allocBuf_no_insert s fid pno hlk
      rw [halloc] at hni
      exact hni
    | ok frame =>
      cases hdr : diskRead disk fid pno with
      | none =>
        rw [hdr] at hfail
        simp at hfail
        obtain ⟨-, hs, -⟩ := hfail
        rw [← hs]
        have hni := allocBuf_no_insert s fid pno hlk
        rw [halloc] at hni
        exact hni
      | some p =>
        rw [hdr] at hfail
        simp at hfail

theorem init_descAt (n i : Nat) (h : i < n) :
    descAt (BufMgr.init n) i = BufDesc.mk i none 0 false false 0 false := by
  simp [descAt, BufMgr.init, List.getD, List.getElem?_map, List.getElem?_range, h]

theorem readPage_miss (disk : Disk) (s s1 : BufMgr) (fid pno frame : Nat)
    (tr : List Ev) (pg : Page)
    (hmiss : BufHashTbl.lookup s.hashTable fid pno = none)
    (halloc : allocBuf s = (.ok frame, s1, tr))
    (hdr : diskRead disk fid pno = some pg) :
    ∃ s5, readPage disk s fid pno = (.ok (frame, pg), s5, tr) ∧
      s5.numBufs = s1.numBufs ∧
      s5.clockHand = s1.clockHand ∧
      s5.bufDescTable = s1.bufDescTable.set frame ((descAt s1 frame).Set fid pno) ∧
      s5.bufPool = s1.bufPool.set frame pg ∧
      s5.hashTable = BufHashTbl.insert s1.hashTable fid pno frame := by
  unfold readPage
  rw [hmiss, halloc, hdr]
  exact ⟨_, rfl, rfl, rfl, rfl, rfl, rfl⟩

theorem fetchSeq_ok (disk : Disk) (N : Nat) :
    ∀ (rest : List (Nat × Nat)) (k : Nat) (s : BufMgr),
      s.numBufs = N → 0 < N →
      s.bufDescTable.length = N → s.bufPool.length = N →
      s.clockHand = (N - 1 + k) % N →
      k + rest.length ≤ N →
      (∀ i, k ≤ i → i < N → descAt s i = BufDesc.mk i none 0 false false 0 false) →
      (∀ pr ∈ rest, BufHashTbl.lookup s.hashTable pr.1 pr.2 = none) →
      rest.Nodup →
      (∀ pr ∈ rest, (diskRead disk pr.1 pr.2).isSome = true) →
      ∃ sF pgs, fetchSeq disk s rest = .ok (sF, pgs) ∧
        rest.map (fun pr => diskRead disk pr.1 pr.2) = pgs.map some := by
  intro rest
  induction rest with
  | nil =>
    intro k s hN h0 hlen hplen hck hcap hdesc hmiss hnd hrd
    exact ⟨s, [], rfl, rfl⟩
  | cons pr rest ih =>
    intro k s hN h0 hlen hplen hck hcap hdesc hmiss hnd hrd
    have hkN : k < N := by
      have : (pr :: rest).length = rest.length + 1 := by simp
      omega
    have hadv : (s.clockHand + 1) % s.numBufs = k := by
      rw [hck, hN, Nat.mod_add_mod, show N - 1 + k + 1 = N + k from by omega,
        Nat.add_mod_left, Nat.mod_eq_of_lt hkN]
    have hdk : descAt s ((s.clockHand + 1) % s.numBufs) =
        BufDesc.mk k none 0 false false 0 false := by
      rw [hadv]; exact hdesc k (le_refl k) hkN
    have halloc : allocBuf s = (.ok k, advanceClock s, []) := by
      rw [allocBuf_invalid s (by rw [hdk]), hdk]
    obtain ⟨pg, hpg⟩ := Option.isSome_iff_exists.mp (hrd pr (List.mem_cons_self pr rest))
    obtain ⟨s5, hstep, e1, e2, e3, e4, e5⟩ :=
      readPage_miss disk s (advanceClock s) pr.1 pr.2 k [] pg
        (hmiss pr (List.mem_cons_self pr rest)) halloc hpg
    have hpr_nin : pr ∉ rest := (List.nodup_cons.mp hnd).1
    obtain ⟨sF, pgs, hfs, hmap⟩ := ih (k + 1) s5
      (by rw [e1, numBufs_advance, hN])
      h0
      (by rw [e3, List.length_set]
          show (advanceClock s).bufDescTable.length = N
          exact hlen)
      (by rw [e4, List.length_set]
          show (advanceClock s).bufPool.length = N
          exact hplen)
      (by rw [e2, clockHand_advance, hadv,
            show N - 1 + (k + 1) = N + k from by omega,
            Nat.add_mod_left, Nat.mod_eq_of_lt hkN])
      (by have : (pr :: rest).length = rest.length + 1 := by simp
          omega)
      (by intro i hi1 hi2
          have hne : k ≠ i := by omega
          have h1 : descAt s5 i =
              descAt (setDesc (advanceClock s) k ((descAt (advanceClock s) k).Set pr.1 pr.2)) i :=
            descAt_of_table _ _ _ (by rw [e3]; rfl)
          rw [h1, descAt_setDesc_ne _ _ _ _ hne, descAt_advance]
          exact hdesc i (by omega) hi2)
      (by intro pr2 hpr2
          obtain ⟨a, b⟩ := pr2
          rw [e5]
          have hne : ((a, b) : Nat × Nat) ≠ pr := by
            intro hEq
            rw [hEq] at hpr2
            exact hpr_nin hpr2
          rw [show ((a, b) : Nat × Nat).1 = a from rfl, show ((a, b) : Nat × Nat).2 = b from rfl]
          rw [lookup_insert_ne _ _ _ _ _ _ (by
            intro hEq
            apply hne
            have hpr_eta : pr = (pr.1, pr.2) := rfl
            rw [hpr_eta, ← hEq])]
          show BufHashTbl.lookup s.hashTable a b = none
          exact hmiss (a, b) (List.mem_cons_of_mem pr hpr2))
      ((List.nodup_cons.mp hnd).2)
      (fun pr2 hpr2 => hrd pr2 (List.mem_cons_of_mem pr hpr2))
    refine ⟨sF, pg :: pgs, ?_, ?_⟩
    · unfold fetchSeq
      rw [hstep]
      change (match fetchSeq disk s5 rest with
        | Except.ok (sF2, pgs2) => Except.ok (sF2, pg :: pgs2)
        | Except.error e => Except.error e) = Except.ok (sF, pg :: pgs)
      rw [hfs]
    · rw [List.map_cons, List.map_cons, hpg, hmap]

/-- C6: from a freshly constructed pool of size N, any sequence of at
most N fetchPage calls on pairwise-distinct pages that exist on disk
succeeds with no exception, and each call returns page content equal to
the file's on-disk content for that page. -/
theorem c6_fill (disk : Disk) (N : Nat) (ps : List (Nat × Nat))
    (h0 : 0 < N) (hlen : ps.length ≤ N) (hnd : ps.Nodup)
    (hrd : ∀ pr ∈ ps, (diskRead disk pr.1 pr.2).isSome = true) :
    ∃ sF pgs, fetchSeq disk (BufMgr.init N) ps = .ok (sF, pgs) ∧
      ps.map (fun pr => diskRead disk pr.1 pr.2) = pgs.map some := by
  apply fetchSeq_ok disk N ps 0 (BufMgr.init N) rfl h0
  · simp [BufMgr.init]
  · simp [BufMgr.init]
  · show N - 1 = (N - 1 + 0) % N
    rw [Nat.add_zero, Nat.mod_eq_of_lt (by omega)]
  · omega
  · intro i hi1 hi2
    exact init_descAt N i hi2
  · intro pr hpr
    rfl
  · exact hnd
  · exact hrd

theorem poolAt_of_pool (s1 s2 : BufMgr) (j : Nat)
    (h : s1.bufPool = s2.bufPool) : poolAt s1 j = poolAt s2 j := by
  unfold poolAt; rw [h]

theorem flushLoop_skip_none (fid fuel i : Nat) (s : BufMgr)
    (h : (descAt s i).file = none) :
    flushLoop fid (fuel + 1) i s = flushLoop fid fuel (i + 1) s := by
  simp [flushLoop, h]

theorem flushLoop_skip_other (fid fuel i f2 : Nat) (s : BufMgr)
    (h : (descAt s i).file = some f2) (hne : f2 ≠ fid) :
    flushLoop fid (fuel + 1) i s = flushLoop fid fuel (i + 1) s := by
  simp [flushLoop, h, hne]

theorem flushLoop_hits_pinned (fid fuel i : Nat) (s : BufMgr)
    (h : (descAt s i).file = some fid) (hpg : (descAt s i).pageNo ≠ 0)
    (hp : 0 < (descAt s i).pinCnt) :
    flushLoop fid (fuel + 1) i s = (.error .pagePinned, s, []) := by
  simp [flushLoop, h, hpg, hp]

theorem flushLoop_process_clean (fid fuel i : Nat) (s : BufMgr)
    (h : (descAt s i).file = some fid) (hpg : (descAt s i).pageNo ≠ 0)
    (hp : (descAt s i).pinCnt = 0) (hd : (descAt s i).dirty = false) :
    flushLoop fid (fuel + 1) i s =
      flushLoop fid fuel (i + 1)
        (setDesc { s with hashTable := BufHashTbl.remove s.hashTable fid (descAt s i).pageNo }
          i (BufDesc.Clear (descAt s i))) := by
  rcases hrec : flushLoop fid fuel (i + 1)
    (setDesc { s with hashTable := BufHashTbl.remove s.hashTable fid (descAt s i).pageNo }
      i (BufDesc.Clear (descAt s i))) with ⟨r, s4, tr2⟩
  simp [flushLoop, h, hpg, hp, hd, hrec]

theorem flushLoop_process_dirty (fid fuel i : Nat) (s : BufMgr)
    (h : (descAt s i).file = some fid) (hpg : (descAt s i).pageNo ≠ 0)
    (hp : (descAt s i).pinCnt = 0) (hd : (descAt s i).dirty = true) :
    flushLoop fid (fuel + 1) i s =
      ((flushLoop fid fuel (i + 1)
          (setDesc { s with
              bufStats := { s.bufStats with diskwrites := s.bufStats.diskwrites + 1 },
              hashTable := BufHashTbl.remove s.hashTable fid (descAt s i).pageNo }
            i (BufDesc.Clear (descAt s i)))).1,
       (flushLoop fid fuel (i + 1)
          (setDesc { s with
              bufStats := { s.bufStats with diskwrites := s.bufStats.diskwrites + 1 },
              hashTable := BufHashTbl.remove s.hashTable fid (descAt s i).pageNo }
            i (BufDesc.Clear (descAt s i)))).2.1,
       Ev.write fid (poolAt s i) ::
        (flushLoop fid fuel (i + 1)
          (setDesc { s with
              bufStats := { s.bufStats with diskwrites := s.bufStats.diskwrites + 1 },
              hashTable := BufHashTbl.remove s.hashTable fid (descAt s i).pageNo }
            i (BufDesc.Clear (descAt s i)))).2.2) := by
  rcases hrec : flushLoop fid fuel (i + 1)
    (setDesc { s with
        bufStats := { s.bufStats with diskwrites := s.bufStats.diskwrites + 1 },
        hashTable := BufHashTbl.remove s.hashTable fid (descAt s i).pageNo }
      i (BufDesc.Clear (descAt s i))) with ⟨r, s4, tr2⟩
  simp [flushLoop, h, hpg, hp, hd, hrec]

theorem flushLoop_pinned_spec (fid : Nat) (s0 : BufMgr) (fp : Nat)
    (hfpN : fp < s0.numBufs)
    (hm : (descAt s0 fp).file = some fid)
    (hpin : 0 < (descAt s0 fp).pinCnt)
    (hmin : ∀ g, g < fp → (descAt s0 g).file = some fid → (descAt s0 g).pinCnt = 0)
    (hpg : ∀ g, g < s0.numBufs → (descAt s0 g).file = some fid → (descAt s0 g).pageNo ≠ 0)
    (hlen0 : s0.bufDescTable.length = s0.numBufs) :
    ∀ fuel i si, i ≤ fp → fp < i + fuel →
      si.bufDescTable.length = s0.numBufs →
      si.bufPool = s0.bufPool →
      (∀ g, i ≤ g → descAt si g = descAt s0 g) →
      ∃ sF tr, flushLoop fid fuel i si = (.error .pagePinned, sF, tr) ∧
        (∀ g, i ≤ g → g < fp → (descAt s0 g).file = some fid →
          descAt sF g = BufDesc.Clear (descAt s0 g) ∧
          BufHashTbl.lookup sF.hashTable fid (descAt s0 g).pageNo = none ∧
          ((descAt s0 g).dirty = true → Ev.write fid (poolAt s0 g) ∈ tr)) ∧
        (∀ g, i ≤ g → g < fp → ¬ (descAt s0 g).file = some fid →
          descAt sF g = descAt s0 g) ∧
        (∀ g, fp ≤ g → descAt sF g = descAt s0 g) ∧
        (∀ g, g < i → descAt sF g = descAt si g) ∧
        (∀ k1 k2, BufHashTbl.lookup si.hashTable k1 k2 = none →
          BufHashTbl.lookup sF.hashTable k1 k2 = none) ∧
        sF.bufPool = s0.bufPool := by
  intro fuel
  induction fuel with
  | zero =>
    intro i si hile hlt hlen hpool hge
    omega
  | succ fuel ih =>
    intro i si hile hlt hlen hpool hge
    by_cases hifp : i = fp
    · subst hifp
      have hdi : descAt si i = descAt s0 i := hge i (le_refl i)
      refine ⟨si, [], ?_, ?_, ?_, ?_, ?_, ?_, hpool⟩
      · exact flushLoop_hits_pinned fid fuel i si
          (by rw [hdi]; exact hm) (by rw [hdi]; exact hpg i hfpN hm)
          (by rw [hdi]; exact hpin)
      · intro g hg1 hg2 _; omega
      · intro g hg1 hg2 _; omega
      · intro g hg; exact hge g hg
      · intro g _; rfl
      · intro k1 k2 h; exact h
    · have hilt : i < fp := by omega
      have hiN : i < s0.numBufs := by omega
      have hdi : descAt si i = descAt s0 i := hge i (le_refl i)
      cases hfile : (descAt s0 i).file with
      | none =>
        obtain ⟨sF, tr, hrec, A, B, C, D, E, P⟩ := ih (i + 1) si (by omega) (by omega)
          hlen hpool (fun g hg => hge g (by omega))
        refine ⟨sF, tr, ?_, ?_, ?_, C, ?_, E, P⟩
        · rw [flushLoop_skip_none fid fuel i si (by rw [hdi]; exact hfile)]
          exact hrec
        · intro g hg1 hg2 hgf
          rcases Nat.lt_or_ge i g with hgi | hgi
          · exact A g (by omega) hg2 hgf
          · have hgieq : g = i := by omega
            rw [hgieq, hfile] at hgf
            exact Option.noConfusion hgf
        · intro g hg1 hg2 hgf
          rcases Nat.lt_or_ge i g with hgi | hgi
          · exact B g (by omega) hg2 hgf
          · have hgieq : g = i := by omega
            rw [hgieq, D i (by omega)]
            exact hdi
        · intro g hg
          exact D g (by omega)
      | some f2 =>
        by_cases hf2 : f2 = fid
        · have hfileF : (descAt s0 i).file = some fid := by rw [hfile, hf2]
          have hpgne : (descAt s0 i).pageNo ≠ 0 := hpg i hiN hfileF
          have hpi : (descAt s0 i).pinCnt = 0 := hmin i hilt hfileF
          have hclen : i < si.bufDescTable.length := by omega
          by_cases hdirty : (descAt s0 i).dirty = true
          · obtain ⟨sF, tr, hrec, A, B, C, D, E, P⟩ := ih (i + 1)
              (setDesc { si with
                  bufStats := { si.bufStats with diskwrites := si.bufStats.diskwrites + 1 },
                  hashTable := BufHashTbl.remove si.hashTable fid (descAt si i).pageNo }
                i (BufDesc.Clear (descAt si i)))
              (by omega) (by omega)
              (by rw [show (setDesc { si with
                    bufStats := { si.bufStats with diskwrites := si.bufStats.diskwrites + 1 },
                    hashTable := BufHashTbl.remove si.hashTable fid (descAt si i).pageNo }
                  i (BufDesc.Clear (descAt si i))).bufDescTable =
                    si.bufDescTable.set i (BufDesc.Clear (descAt si i)) from rfl,
                  List.length_set]
                  exact hlen)
              hpool
              (by intro g hg
                  rw [descAt_setDesc_ne _ _ _ _ (by omega : i ≠ g)]
                  have hx : descAt { si with
                      bufStats := { si.bufStats with diskwrites := si.bufStats.diskwrites + 1 },
                      hashTable := BufHashTbl.remove si.hashTable fid (descAt si i).pageNo } g =
                      descAt si g := descAt_of_table _ _ _ rfl
                  rw [hx]
                  exact hge g (by omega))
            refine ⟨sF, Ev.write fid (poolAt si i) :: tr, ?_, ?_, ?_, C, ?_, ?_, P⟩
            · rw [flushLoop_process_dirty fid fuel i si (by rw [hdi]; exact hfileF)
                (by rw [hdi]; exact hpgne) (by rw [hdi]; exact hpi) (by rw [hdi]; exact hdirty)]
              rw [hrec]
            · intro g hg1 hg2 hgf
              rcases Nat.lt_or_ge i g with hgi | hgi
              · obtain ⟨a1, a2, a3⟩ := A g (by omega) hg2 hgf
                exact ⟨a1, a2, fun hdg => List.mem_cons_of_mem _ (a3 hdg)⟩
              · have hgieq : g = i := by omega
                rw [hgieq]
                refine ⟨?_, ?_, ?_⟩
                · rw [D i (by omega), descAt_setDesc_self _ _ _ (by exact hclen), hdi]
                · apply E
                  rw [show (setDesc { si with
                      bufStats := { si.bufStats with diskwrites := si.bufStats.diskwrites + 1 },
                      hashTable := BufHashTbl.remove si.hashTable fid (descAt si i).pageNo }
                    i (BufDesc.Clear (descAt si i))).hashTable =
                      BufHashTbl.remove si.hashTable fid (descAt si i).pageNo from rfl, hdi]
                  exact lookup_remove_self si.hashTable fid (descAt s0 i).pageNo
                · intro _
                  have hpp : poolAt si i = poolAt s0 i := poolAt_of_pool si s0 i hpool
                  rw [← hpp]
                  exact List.mem_cons_self _ _
            · intro g hg1 hg2 hgf
              rcases Nat.lt_or_ge i g with hgi | hgi
              · exact B g (by omega) hg2 hgf
              · have hgieq : g = i := by omega
                rw [hgieq] at hgf
                exact absurd hfileF hgf
            · intro g hg
              rw [D g (by omega), descAt_setDesc_ne _ _ _ _ (by omega : i ≠ g)]
              exact descAt_of_table _ _ _ rfl
            · intro k1 k2 h
              apply E
              rw [show (setDesc { si with
                  bufStats := { si.bufStats with diskwrites := si.bufStats.diskwrites + 1 },
                  hashTable := BufHashTbl.remove si.hashTable fid (descAt si i).pageNo }
                i (BufDesc.Clear (descAt si i))).hashTable =
                  BufHashTbl.remove si.hashTable fid (descAt si i).pageNo from rfl]
              exact lookup_remove_none _ _ _ _ _ h
          · have hdf : (descAt s0 i).dirty = false := by simpa using hdirty
            obtain ⟨sF, tr, hrec, A, B, C, D, E, P⟩ := ih (i + 1)
              (setDesc { si with
                  hashTable := BufHashTbl.remove si.hashTable fid (descAt si i).pageNo }
                i (BufDesc.Clear (descAt si i)))
              (by omega) (by omega)
              (by rw [show (setDesc { si with
                    hashTable := BufHashTbl.remove si.hashTable fid (descAt si i).pageNo }
                  i (BufDesc.Clear (descAt si i))).bufDescTable =
                    si.bufDescTable.set i (BufDesc.Clear (descAt si i)) from rfl,
                  List.length_set]
                  exact hlen)
              hpool
              (by intro g hg
                  rw [descAt_setDesc_ne _ _ _ _ (by omega : i ≠ g)]
                  have hx : descAt { si with
                      hashTable := BufHashTbl.remove si.hashTable fid (descAt si i).pageNo } g =
                      descAt si g := descAt_of_table _ _ _ rfl
                  rw [hx]
                  exact hge g (by omega))
            refine ⟨sF, tr, ?_, ?_, ?_, C, ?_, ?_, P⟩
            · rw [flushLoop_process_clean fid fuel i si (by rw [hdi]; exact hfileF)
                (by rw [hdi]; exact hpgne) (by rw [hdi]; exact hpi) (by rw [hdi]; exact hdf)]
              exact hrec
            · intro g hg1 hg2 hgf
              rcases Nat.lt_or_ge i g with hgi | hgi
              · exact A g (by omega) hg2 hgf
              · have hgieq : g = i := by omega
                rw [hgieq]
                refine ⟨?_, ?_, ?_⟩
                · rw [D i (by omega), descAt_setDesc_self _ _ _ (by exact hclen), hdi]
                · apply E
                  rw [show (setDesc { si with
                      hashTable := BufHashTbl.remove si.hashTable fid (descAt si i).pageNo }
                    i (BufDesc.Clear (descAt si i))).hashTable =
                      BufHashTbl.remove si.hashTable fid (descAt si i).pageNo from rfl, hdi]
                  exact lookup_remove_self si.hashTable fid (descAt s0 i).pageNo
                · intro hdg
                  rw [hdg] at hdf
                  exact Bool.noConfusion hdf
            · intro g hg1 hg2 hgf
              rcases Nat.lt_or_ge i g with hgi | hgi
              · exact B g (by omega) hg2 hgf
              · have hgieq : g = i := by omega
                rw [hgieq] at hgf
                exact absurd hfileF hgf
            · intro g hg
              rw [D g (by omega), descAt_setDesc_ne _ _ _ _ (by omega : i ≠ g)]
              exact descAt_of_table _ _ _ rfl
            · intro k1 k2 h
              apply E
              rw [show (setDesc { si with
                  hashTable := BufHashTbl.remove si.hashTable fid (descAt si i).pageNo }
                i (BufDesc.Clear (descAt si i))).hashTable =
                  BufHashTbl.remove si.hashTable fid (descAt si i).pageNo from rfl]
              exact lookup_remove_none _ _ _ _ _ h
        · obtain ⟨sF, tr, hrec, A, B, C, D, E, P⟩ := ih (i + 1) si (by omega) (by omega)
            hlen hpool (fun g hg => hge g (by omega))
          refine ⟨sF, tr, ?_, ?_, ?_, C, ?_, E, P⟩
          · rw [flushLoop_skip_other fid fuel i f2 si (by rw [hdi]; exact hfile) hf2]
            exact hrec
          · intro g hg1 hg2 hgf
            rcases Nat.lt_or_ge i g with hgi | hgi
            · exact A g (by omega) hg2 hgf
            · have hgieq : g = i := by omega
              rw [hgieq, hfile] at hgf
              injection hgf with hgf
              exact absurd hgf hf2
          · intro g hg1 hg2 hgf
            rcases Nat.lt_or_ge i g with hgi | hgi
            · exact B g (by omega) hg2 hgf
            · have hgieq : g = i := by omega
              rw [hgieq, D i (by omega)]
              exact hdi
          · intro g hg
            exact D g (by omega)

/-- C9: flushFile on a file with a pinned resident page raises
PagePinned; matching frames before the first pinned one (in ascending
frame order) have been written back when dirty, removed from the index
and Cleared, while the pinned frame and all later frames are
unchanged. -/
theorem c9_flush_pinned (s : BufMgr) (fid fp : Nat)
    (hlen : s.bufDescTable.length = s.numBufs)
    (hfpN : fp < s.numBufs)
    (hm : (descAt s fp).file = some fid)
    (hpin : 0 < (descAt s fp).pinCnt)
    (hmin : ∀ g, g < fp → (descAt s g).file = some fid → (descAt s g).pinCnt = 0)
    (hpg : ∀ g, g < s.numBufs → (descAt s g).file = some fid → (descAt s g).pageNo ≠ 0) :
    ∃ sF tr, flushFile s fid = (.error .pagePinned, sF, tr) ∧
      (∀ g, g < fp → (descAt s g).file = some fid →
        descAt sF g = BufDesc.Clear (descAt s g) ∧
        BufHashTbl.lookup sF.hashTable fid (descAt s g).pageNo = none ∧
        ((descAt s g).dirty = true → Ev.write fid (poolAt s g) ∈ tr)) ∧
      (∀ g, g < fp → ¬ (descAt s g).file = some fid → descAt sF g = descAt s g) ∧
      (∀ g, fp ≤ g → descAt sF g = descAt s g) ∧
      sF.bufPool = s.bufPool := by
  obtain ⟨sF, tr, hloop, A, B, C, D, E, P⟩ :=
    flushLoop_pinned_spec fid s fp hfpN hm hpin hmin hpg hlen s.numBufs 0 s
      (by omega) (by omega) hlen rfl (fun g _ => rfl)
  refine ⟨sF, tr, ?_, ?_, ?_, C, P⟩
  · unfold flushFile
    rw [hloop]
  · intro g hg hgf
    exact A g (by omega) hg hgf
  · intro g hg hgf
    exact B g (by omega) hg hgf

/-- C7: unpinPage on a page resident in the index with pin count zero
raises PageNotPinned and returns with the manager state entirely
unchanged, the dirty flag included, whatever markDirty is. -/
theorem c7_notpinned (s : BufMgr) (fid pno frame : Nat) (markDirty : Bool)
    (hres : BufHashTbl.lookup s.hashTable fid pno = some frame)
    (hp : (descAt s frame).pinCnt = 0) :
    unPinPage s fid pno markDirty = (.error .pageNotPinned, s, []) := by
  unfold unPinPage
  rw [hres]
  simp [hp]

/-- C10: disposePage on a resident page whose pin count is positive
raises no error: it removes the index entry, Clears the frame
descriptor and issues the deletion to the file collaborator, exactly as
it would for an unpinned page. -/
theorem c10_dispose_pinned (s : BufMgr) (fid pno frame : Nat)
    (hlen : s.bufDescTable.length = s.numBufs)
    (hfr : frame < s.numBufs)
    (hres : BufHashTbl.lookup s.hashTable fid pno = some frame)
    (hp : 0 < (descAt s frame).pinCnt) :
    ∃ s2, disposePage s fid pno = (.ok (), s2, [Ev.del fid pno]) ∧
      BufHashTbl.lookup s2.hashTable fid pno = none ∧
      descAt s2 frame = BufDesc.Clear (descAt s frame) := by
  unfold disposePage
  rw [hres]
  refine ⟨_, rfl, ?_, ?_⟩
  · rw [show (setDesc { s with hashTable := BufHashTbl.remove s.hashTable fid pno }
        frame (BufDesc.Clear (descAt { s with
          hashTable := BufHashTbl.remove s.hashTable fid pno } frame))).hashTable =
        BufHashTbl.remove s.hashTable fid pno from rfl]
    exact lookup_remove_self s.hashTable fid pno
  · rw [descAt_setDesc_self _ _ _ (by exact (by omega : frame < s.bufDescTable.length))]
    rfl

/-- C1: the hash-table/frame-table consistency invariant fails on a
reachable state.  On a pool of size 2, fetching (0,1) and (0,2),
unpinning both clean, and fetching (0,3) twice (the first attempt
throws BufferExceeded) reuses frame 1 for page 3 while the stale index
entry (0,2) -> 1 survives: the entry now names a frame whose descriptor
records page 3, not page 2. -/
theorem c1_bug :
    BufHashTbl.lookup ct6.hashTable 0 2 = some 1 ∧
    (descAt ct6 1).valid = true ∧
    (descAt ct6 1).file = some 0 ∧
    (descAt ct6 1).pageNo = 3 ∧
    (descAt ct6 1).pageNo ≠ 2 := by decide

/-- C2 counterexample: a reachable single-frame pool whose only frame
is valid with pinCount 0 (so the claim demands a successful
allocation), yet allocBuf raises BufferExceeded because the frame's
refbit is set and the first probe never clears refbits. -/
theorem c2_cex :
    (descAt cs2 0).valid = true ∧
    (descAt cs2 0).pinCnt = 0 ∧
    (allocBuf cs2).1 = .error .bufferExceeded := by decide

/-- C2 witness at a concrete input: a fresh pool of one invalid frame
is eligible, and allocBuf returns a frame id. -/
theorem c2_witness :
    WF (BufMgr.init 1) ∧
    (∃ f, f < (BufMgr.init 1).numBufs ∧ eligible (BufMgr.init 1) f) ∧
    (∃ fr s' tr, allocBuf (BufMgr.init 1) = (.ok fr, s', tr)) :=
  ⟨by decide, ⟨0, by decide, by decide⟩,
    c2_amended (BufMgr.init 1) (by decide) ⟨0, by decide, by decide⟩⟩

/-- C3: the very first frame probed by allocBuf does not get its refbit
cleared.  On a reachable single-frame pool whose frame is valid with
refbit set, the scan probes that frame, leaves refbit set, and throws
BufferExceeded. -/
theorem c3_bug :
    (descAt cs2 0).valid = true ∧
    (descAt cs2 0).refbit = true ∧
    (allocBuf cs2).1 = .error .bufferExceeded ∧
    (descAt (allocBuf cs2).2.1 0).refbit = true := by decide

/-- C4: the pool-of-3 scenario.  After fetching (0,1), (0,2), (0,3),
unpinning (0,1) clean and (0,2) dirty, the fetch of page D = (0,4)
raises BufferExceeded (with no write-back) instead of succeeding in
page A's former frame as the claim requires. -/
theorem c4_bug :
    (descAt cu5 0).valid = true ∧ (descAt cu5 0).pinCnt = 0 ∧
      (descAt cu5 0).dirty = false ∧
    (descAt cu5 1).valid = true ∧ (descAt cu5 1).pinCnt = 0 ∧
      (descAt cu5 1).dirty = true ∧
    (descAt cu5 2).valid = true ∧ (descAt cu5 2).pinCnt = 1 ∧
    (readPage exDisk cu5 0 4).1 = .error .bufferExceeded ∧
    (readPage exDisk cu5 0 4).2.2 = [] := by decide

/-- C5 witness at a concrete input: a dirty unpinned frame of file 5 is
selected; the trace carries its write-back and its index entry is
gone. -/
theorem c5_witness :
    WF cwD ∧ (descAt cwD 0).valid = true ∧ (descAt cwD 0).dirty = true ∧
    (descAt cwD 0).file = some 5 ∧
    (Ev.write 5 (poolAt cwD 0) ∈ (allocBuf cwD).2.2 ∧
      BufHashTbl.lookup (allocBuf cwD).2.1.hashTable 5 (descAt cwD 0).pageNo = none) :=
  ⟨by decide, by decide, by decide, by decide,
    c5_writeback cwD 0 5 (allocBuf cwD).2.1 (allocBuf cwD).2.2
      (by decide) (by decide) (by decide) (by decide) (by decide)⟩

/-- C6 witness at a concrete input: two distinct resident-on-disk pages
fetched into a fresh pool of size 2. -/
theorem c6_witness :
    0 < 2 ∧ ([((0 : Nat), (1 : Nat)), (0, 2)]).length ≤ 2 ∧
    ([((0 : Nat), (1 : Nat)), (0, 2)]).Nodup ∧
    (∀ pr ∈ [((0 : Nat), (1 : Nat)), (0, 2)], (diskRead exDisk pr.1 pr.2).isSome = true) ∧
    (∃ sF pgs, fetchSeq exDisk (BufMgr.init 2) [(0, 1), (0, 2)] = .ok (sF, pgs) ∧
      ([((0 : Nat), (1 : Nat)), (0, 2)]).map (fun pr => diskRead exDisk pr.1 pr.2) =
        pgs.map some) :=
  ⟨by decide, by decide, by decide, by decide,
    c6_fill exDisk 2 [(0, 1), (0, 2)] (by decide) (by decide) (by decide) (by decide)⟩

/-- C7 witness at a concrete input: page (0,1) resident with pin count
zero; unpinning it again (with markDirty = true) errors and changes
nothing. -/
theorem c7_witness :
    BufHashTbl.lookup cs2.hashTable 0 1 = some 0 ∧
    (descAt cs2 0).pinCnt = 0 ∧
    unPinPage cs2 0 1 true = (.error .pageNotPinned, cs2, []) :=
  ⟨by decide, by decide, c7_notpinned cs2 0 1 0 true (by decide) (by decide)⟩

/-- C8 counterexample: fetching a third page into a size-2 pool whose
two frames are both pinned fails with BufferExceeded, yet the manager
state has changed: frame 1's refbit was cleared by the scan (and the
clock hand moved), so a failed fetchPage does not leave the state
unchanged. -/
theorem c8_cex :
    (readPage exDisk ct2 0 3).1 = .error .bufferExceeded ∧
    (descAt ct2 1).refbit = true ∧
    (descAt (readPage exDisk ct2 0 3).2.1 1).refbit = false ∧
    (readPage exDisk ct2 0 3).2.1 ≠ ct2 := by decide

/-- C8 witness at a concrete input: a failing read (page absent from an
empty disk) leaves no index entry for the requested page. -/
theorem c8_witness :
    (readPage [] (BufMgr.init 1) 0 1).1 = Except.error BufErr.invalidPage ∧
    BufHashTbl.lookup (readPage [] (BufMgr.init 1) 0 1).2.1.hashTable 0 1 = none :=
  ⟨by decide,
    c8_amended [] (BufMgr.init 1) 0 1 .invalidPage
      (readPage [] (BufMgr.init 1) 0 1).2.1
      (readPage [] (BufMgr.init 1) 0 1).2.2 (by decide)⟩

/-- C9 witness at a concrete input: file 3 has a dirty unpinned page in
frame 0 and a pinned page in frame 1; the flush errors with PagePinned
after processing frame 0. -/
theorem c9_witness :
    cwF.bufDescTable.length = cwF.numBufs ∧ 1 < cwF.numBufs ∧
    (descAt cwF 1).file = some 3 ∧ 0 < (descAt cwF 1).pinCnt ∧
    (∀ g, g < 1 → (descAt cwF g).file = some 3 → (descAt cwF g).pinCnt = 0) ∧
    (∀ g, g < cwF.numBufs → (descAt cwF g).file = some 3 → (descAt cwF g).pageNo ≠ 0) ∧
    (∃ sF tr, flushFile cwF 3 = (.error .pagePinned, sF, tr) ∧
      (∀ g, g < 1 → (descAt cwF g).file = some 3 →
        descAt sF g = BufDesc.Clear (descAt cwF g) ∧
        BufHashTbl.lookup sF.hashTable 3 (descAt cwF g).pageNo = none ∧
        ((descAt cwF g).dirty = true → Ev.write 3 (poolAt cwF g) ∈ tr)) ∧
      (∀ g, g < 1 → ¬ (descAt cwF g).file = some 3 → descAt sF g = descAt cwF g) ∧
      (∀ g, 1 ≤ g → descAt sF g = descAt cwF g) ∧
      sF.bufPool = cwF.bufPool) :=
  ⟨by decide, by decide, by decide, by decide, by decide, by decide,
    c9_flush_pinned cwF 3 1 (by decide) (by decide) (by decide) (by decide)
      (by decide) (by decide)⟩

/-- C10 witness at a concrete input: page (0,2) is resident in frame 1
with pin count 1; disposePage succeeds anyway, removing the entry,
clearing the descriptor and deleting the page from the file. -/
theorem c10_witness :
    cu3.bufDescTable.length = cu3.numBufs ∧ 1 < cu3.numBufs ∧
    BufHashTbl.lookup cu3.hashTable 0 2 = some 1 ∧
    0 < (descAt cu3 1).pinCnt ∧
    (∃ s2, disposePage cu3 0 2 = (.ok (), s2, [Ev.del 0 2]) ∧
      BufHashTbl.lookup s2.hashTable 0 2 = none ∧
      descAt s2 1 = BufDesc.Clear (descAt cu3 1)) :=
  ⟨by decide, by decide, by decide, by decide,
    c10_dispose_pinned cu3 0 2 1 (by decide) (by decide) (by decide) (by decide)⟩
